import Mathlib

/-!
Shallow embedding of the pybox2d-lite physics engine (sources: `body.py`,
`math_utils.py`, `collide.py`, `arbiter.py`, `joint.py`, `world.py`).

Scalars are modelled as rationals (exact arithmetic).  The engine evaluates
`cos`/`sin` (for rotation matrices) and `sqrt` (for the combined friction
coefficient) on scalars; those transcendental maps are passed in as explicit
function parameters `cosF`, `sinF`, `sqrtF` so every definition stays
computable.  Theorems that need a genuine rotation matrix take the defining
identity `cos^2 + sin^2 = 1` as a hypothesis.

The repository's `settings` module (imported by `arbiter.py` and `joint.py`
but not part of the source tree) provides three booleans.  Modelled from the
spec: `WARM_STARTING`, `ACCUMULATE_IMPULSES` and `POSITION_CORRECTION` are
independent boolean configuration knobs; they are threaded through the
definitions here as explicit `Bool` parameters `warm`, `accum`, `poscor`.

Python objects are shared by reference: bodies live in the world's body list
and arbiters/joints refer to them.  Following the spec's guidance, bodies are
kept in a single indexed store (a `List Body`) and arbiters/joints hold the
index of each body; every mutation goes through the store.
-/

namespace PyBox2D

/-- A 2D vector over ℚ (models the 2-element tensors of the source). -/
structure Vec2 where
  x : ℚ
  y : ℚ
deriving DecidableEq

instance : Zero Vec2 := ⟨⟨0, 0⟩⟩

instance : Add Vec2 := ⟨fun a b => ⟨a.x + b.x, a.y + b.y⟩⟩

instance : Sub Vec2 := ⟨fun a b => ⟨a.x - b.x, a.y - b.y⟩⟩

instance : Neg Vec2 := ⟨fun a => ⟨-a.x, -a.y⟩⟩

instance : SMul ℚ Vec2 := ⟨fun k v => ⟨k * v.x, k * v.y⟩⟩

/-- Dot product `a @ b` of two 2-vectors. -/
def Vec2.dot (a b : Vec2) : ℚ := a.x * b.x + a.y * b.y

/-- Elementwise absolute value `np.abs(v)`. -/
def Vec2.absV (a : Vec2) : Vec2 := ⟨|a.x|, |a.y|⟩

@[simp] theorem Vec2.add_def (a b : Vec2) : a + b = ⟨a.x + b.x, a.y + b.y⟩ := rfl

@[simp] theorem Vec2.sub_def (a b : Vec2) : a - b = ⟨a.x - b.x, a.y - b.y⟩ := rfl

@[simp] theorem Vec2.neg_def (a : Vec2) : -a = ⟨-a.x, -a.y⟩ := rfl

@[simp] theorem Vec2.smul_def (k : ℚ) (a : Vec2) : k • a = ⟨k * a.x, k * a.y⟩ := rfl

@[simp] theorem Vec2.zero_def : (0 : Vec2) = ⟨0, 0⟩ := rfl

@[simp] theorem Vec2.zero_x : (0 : Vec2).x = 0 := rfl

@[simp] theorem Vec2.zero_y : (0 : Vec2).y = 0 := rfl

theorem Vec2.ext_xy {a b : Vec2} (hx : a.x = b.x) (hy : a.y = b.y) : a = b := by
  cases a; cases b; cases hx; cases hy; rfl

/-- A 2×2 matrix over ℚ, rows `(a b)` and `(c d)`. -/
structure Mat2 where
  a : ℚ
  b : ℚ
  c : ℚ
  d : ℚ
deriving DecidableEq

instance : Add Mat2 := ⟨fun m n => ⟨m.a + n.a, m.b + n.b, m.c + n.c, m.d + n.d⟩⟩

/-- Matrix–vector product `m @ v`. -/
def Mat2.mulVec (m : Mat2) (v : Vec2) : Vec2 :=
  ⟨m.a * v.x + m.b * v.y, m.c * v.x + m.d * v.y⟩

/-- `m.transpose()`. -/
def Mat2.transpose (m : Mat2) : Mat2 := ⟨m.a, m.c, m.b, m.d⟩

/-- Matrix–matrix product `m @ n`. -/
def Mat2.mul (m n : Mat2) : Mat2 :=
  ⟨m.a * n.a + m.b * n.c, m.a * n.b + m.b * n.d,
   m.c * n.a + m.d * n.c, m.c * n.b + m.d * n.d⟩

/-- Elementwise absolute value `np.abs(m)`. -/
def Mat2.absM (m : Mat2) : Mat2 := ⟨|m.a|, |m.b|, |m.c|, |m.d|⟩

/-- Column 0 of the matrix (`m[:, 0]`). -/
def Mat2.col0 (m : Mat2) : Vec2 := ⟨m.a, m.c⟩

/-- Column 1 of the matrix (`m[:, 1]`). -/
def Mat2.col1 (m : Mat2) : Vec2 := ⟨m.b, m.d⟩

/-- `torch.inverse` of a 2×2 matrix via the adjugate formula
(`joint.py` only ever inverts the effective-mass matrix `K`). -/
def Mat2.inverse (m : Mat2) : Mat2 :=
  let det := m.a * m.d - m.b * m.c
  ⟨m.d / det, -m.b / det, -m.c / det, m.a / det⟩

/-- The rotation matrix `[[cos, -sin], [sin, cos]]` built by
`Body.rotation_matrix` from the cosine and sine of the rotation angle. -/
def rotationMatrix (c s : ℚ) : Mat2 := ⟨c, -s, s, c⟩

/-- `math_utils.cross` on two 2-vectors: `a[0]*b[1] - a[1]*b[0]`. -/
def crossVV (a b : Vec2) : ℚ := a.x * b.y - a.y * b.x

/-- `math_utils.cross` of a 2-vector and a scalar: `(b*a[1], -b*a[0])`. -/
def crossVS (a : Vec2) (b : ℚ) : Vec2 := ⟨b * a.y, -b * a.x⟩

/-- `math_utils.cross` of a scalar and a 2-vector: `(-a*b[1], a*b[0])`. -/
def crossSV (a : ℚ) (b : Vec2) : Vec2 := ⟨-a * b.y, a * b.x⟩

/-- Edge numbers of a box (collide.py `EdgeNumbers`). -/
inductive EdgeNumbers where
  | NO_EDGE
  | EDGE_1
  | EDGE_2
  | EDGE_3
  | EDGE_4
deriving DecidableEq

/-- The four edge-number tags identifying the feature pair that generated a
contact point (collide.py `Edges`). -/
structure Edges where
  in_edge_1 : EdgeNumbers := EdgeNumbers.NO_EDGE
  out_edge_1 : EdgeNumbers := EdgeNumbers.NO_EDGE
  in_edge_2 : EdgeNumbers := EdgeNumbers.NO_EDGE
  out_edge_2 : EdgeNumbers := EdgeNumbers.NO_EDGE
deriving DecidableEq

/-- `Edges.flip`: swap the edge-1 and edge-2 identities. -/
def Edges.flip (e : Edges) : Edges :=
  { in_edge_1 := e.in_edge_2, out_edge_1 := e.out_edge_2,
    in_edge_2 := e.in_edge_1, out_edge_2 := e.out_edge_1 }

/-- A clip vertex: a point plus the edge identity that produced it
(collide.py `ClipVertex`). -/
structure ClipVertex where
  edges : Edges := {}
  v : Vec2 := 0
deriving DecidableEq

/-- `collide.clip_segment_to_line`: clip the segment `v_in[0]–v_in[1]`
against the half-plane `normal @ p - offset <= 0`, synthesizing an
interpolated vertex at a sign change and tagging it with `clip_edge`. -/
def clipSegmentToLine (vIn0 vIn1 : ClipVertex) (normal : Vec2) (offset : ℚ)
    (clipEdge : EdgeNumbers) : List ClipVertex :=
  let distance0 := normal.dot vIn0.v - offset
  let distance1 := normal.dot vIn1.v - offset
  let vOut := (if distance0 ≤ 0 then [vIn0] else [])
    ++ (if distance1 ≤ 0 then [vIn1] else [])
  if distance0 * distance1 < 0 then
    let interp := distance0 / (distance0 - distance1)
    let newPos := vIn0.v + interp • (vIn1.v - vIn0.v)
    let newEdges :=
      if distance0 > 0 then
        { vIn0.edges with in_edge_1 := clipEdge, in_edge_2 := EdgeNumbers.NO_EDGE }
      else
        { vIn1.edges with out_edge_1 := clipEdge, out_edge_2 := EdgeNumbers.NO_EDGE }
    vOut ++ [{ edges := newEdges, v := newPos }]
  else
    vOut

/-- C7: `clip_segment_to_line` returns at most 2 vertices for every input
segment, so the `assert len(v_out) <= 2` at the end of the function never
fires; each of the two clipping passes inside `collide` is an application of
this function and hence yields at most 2 points. -/
theorem clipSegmentToLine_length_le_two (vIn0 vIn1 : ClipVertex) (normal : Vec2)
    (offset : ℚ) (clipEdge : EdgeNumbers) :
    (clipSegmentToLine vIn0 vIn1 normal offset clipEdge).length ≤ 2 := by
  unfold clipSegmentToLine
  by_cases h0 : normal.dot vIn0.v - offset ≤ 0
  · by_cases h1 : normal.dot vIn1.v - offset ≤ 0
    · simp only [h0, h1, if_true]
      split
      · next hlt => exact absurd hlt (not_lt.mpr (mul_nonneg_of_nonpos_of_nonpos h0 h1))
      · simp
    · simp only [h0, h1, if_true, if_false, List.append_nil]
      split
      · simp
      · simp
  · by_cases h1 : normal.dot vIn1.v - offset ≤ 0
    · simp only [h0, h1, if_true, if_false, List.nil_append]
      split
      · simp
      · simp
    · simp only [h0, h1, if_false, List.nil_append]
      split
      · simp
      · simp

/-- `collide.compute_incident_edge`: the incident box's two nearest-edge
vertices (in world coordinates), tagged with edge identities. -/
def computeIncidentEdge (h pos : Vec2) (rot : Mat2) (normal : Vec2) :
    ClipVertex × ClipVertex :=
  let rotT := rot.transpose
  let n := -(rotT.mulVec normal)
  let nAbs := n.absV
  let pair : ClipVertex × ClipVertex :=
    if nAbs.x > nAbs.y then
      if n.x > 0 then
        (⟨{ in_edge_2 := EdgeNumbers.EDGE_3, out_edge_2 := EdgeNumbers.EDGE_4 },
           ⟨h.x, -h.y⟩⟩,
         ⟨{ in_edge_2 := EdgeNumbers.EDGE_4, out_edge_2 := EdgeNumbers.EDGE_1 }, h⟩)
      else
        (⟨{ in_edge_2 := EdgeNumbers.EDGE_1, out_edge_2 := EdgeNumbers.EDGE_2 },
           ⟨-h.x, h.y⟩⟩,
         ⟨{ in_edge_2 := EdgeNumbers.EDGE_2, out_edge_2 := EdgeNumbers.EDGE_3 }, -h⟩)
    else
      if n.y > 0 then
        (⟨{ in_edge_2 := EdgeNumbers.EDGE_4, out_edge_2 := EdgeNumbers.EDGE_1 }, h⟩,
         ⟨{ in_edge_2 := EdgeNumbers.EDGE_1, out_edge_2 := EdgeNumbers.EDGE_2 },
           ⟨-h.x, h.y⟩⟩)
      else
        (⟨{ in_edge_2 := EdgeNumbers.EDGE_2, out_edge_2 := EdgeNumbers.EDGE_3 }, -h⟩,
         ⟨{ in_edge_2 := EdgeNumbers.EDGE_3, out_edge_2 := EdgeNumbers.EDGE_4 },
           ⟨h.x, -h.y⟩⟩)
  (⟨pair.1.edges, pos + rot.mulVec pair.1.v⟩,
   ⟨pair.2.edges, pos + rot.mulVec pair.2.v⟩)

/-- Candidate separating axes (collide.py `Axis`). -/
inductive Axis where
  | FACE_A_X
  | FACE_A_Y
  | FACE_B_X
  | FACE_B_Y
deriving DecidableEq

/-- A contact point (collide.py `Contact`): accumulated impulses `Pn`, `Pt`,
`Pnb`, geometric data and per-step solver scratch. -/
structure Contact where
  Pn : ℚ := 0
  Pt : ℚ := 0
  Pnb : ℚ := 0
  position : Vec2 := 0
  normal : Vec2 := 0
  r1 : Vec2 := 0
  r2 : Vec2 := 0
  separation : ℚ := 0
  mass_normal : ℚ := 0
  mass_tangent : ℚ := 0
  bias : ℚ := 0
  edges : Edges := {}
deriving DecidableEq

/-- Masses in `body.py` are floats that may be `+inf` (static body). -/
inductive Mass where
  | finite (m : ℚ)
  | inf
deriving DecidableEq

/-- A rigid body (body.py `Body`).  `inv_mass`, `I` and `inv_I` are derived
at construction. -/
structure Body where
  width : Vec2
  mass : Mass
  position : Vec2
  rotation : ℚ
  velocity : Vec2
  angular_velocity : ℚ
  force : Vec2
  torque : ℚ
  friction : ℚ
  inv_mass : ℚ
  I : Mass
  inv_I : ℚ
deriving DecidableEq

/-- `Body.__init__`: zero pose, velocity, force; friction `0.2`; derived
inverse mass and inertia.  The guard is the source's `if self.mass <
float('inf')`, which holds exactly for finite masses; no validation is
performed on the sign of a finite mass, the constructor divides by it. -/
def bodyInit (width : Vec2) (mass : Mass) : Body :=
  match mass with
  | Mass.finite m =>
      { width := width, mass := mass, position := 0, rotation := 0,
        velocity := 0, angular_velocity := 0, force := 0, torque := 0,
        friction := 1/5, inv_mass := 1 / m,
        I := Mass.finite (m * width.dot width / 12),
        inv_I := 1 / (m * width.dot width / 12) }
  | Mass.inf =>
      { width := width, mass := mass, position := 0, rotation := 0,
        velocity := 0, angular_velocity := 0, force := 0, torque := 0,
        friction := 1/5, inv_mass := 0, I := Mass.inf, inv_I := 0 }

instance : Inhabited Body := ⟨bodyInit 0 Mass.inf⟩

/-- `Body.add_force`: accumulate `f` into the body's force. -/
def addForce (b : Body) (f : Vec2) : Body := { b with force := b.force + f }

/-- `Body.rotation_matrix` with the cosine and sine maps supplied. -/
def rotMatrixOf (cosF sinF : ℚ → ℚ) (b : Body) : Mat2 :=
  rotationMatrix (cosF b.rotation) (sinF b.rotation)

/-- Clipping-plane data selected from the winning axis inside `collide`. -/
structure ClipSetup where
  frontNormal : Vec2
  front : ℚ
  sideNormal : Vec2
  negSide : ℚ
  posSide : ℚ
  negEdge : EdgeNumbers
  posEdge : EdgeNumbers
  incident : ClipVertex × ClipVertex

/-- `collide.collide`: box–box SAT test plus reference-face clipping,
producing 0–2 contact points. -/
def collide (cosF sinF : ℚ → ℚ) (bodyA bodyB : Body) : List Contact :=
  let hA := (1/2 : ℚ) • bodyA.width
  let hB := (1/2 : ℚ) • bodyB.width
  let posA := bodyA.position
  let posB := bodyB.position
  let rotA := rotMatrixOf cosF sinF bodyA
  let rotB := rotMatrixOf cosF sinF bodyB
  let rotAT := rotA.transpose
  let rotBT := rotB.transpose
  let dp := posB - posA
  let dA := rotAT.mulVec dp
  let dB := rotBT.mulVec dp
  let C := rotAT.mul rotB
  let absC := C.absM
  let absCT := absC.transpose
  let faceA := dA.absV - hA - absC.mulVec hB
  if faceA.x > 0 ∨ faceA.y > 0 then [] else
  let faceB := dB.absV - absCT.mulVec hA - hB
  if faceB.x > 0 ∨ faceB.y > 0 then [] else
  let relTol : ℚ := 95/100
  let absTol : ℚ := 1/100
  let best0 : Axis × ℚ × Vec2 :=
    (Axis.FACE_A_X, faceA.x, if dA.x > 0 then rotA.col0 else -rotA.col0)
  let best1 :=
    if faceA.y > relTol * best0.2.1 + absTol * hA.y then
      (Axis.FACE_A_Y, faceA.y, if dA.y > 0 then rotA.col1 else -rotA.col1)
    else best0
  let best2 :=
    if faceB.x > relTol * best1.2.1 + absTol * hB.x then
      (Axis.FACE_B_X, faceB.x, if dB.x > 0 then rotB.col0 else -rotB.col0)
    else best1
  let best3 :=
    if faceB.y > relTol * best2.2.1 + absTol * hB.y then
      (Axis.FACE_B_Y, faceB.y, if dB.y > 0 then rotB.col1 else -rotB.col1)
    else best2
  let axis := best3.1
  let normal := best3.2.2
  let st : ClipSetup :=
    match axis with
    | Axis.FACE_A_X =>
        { frontNormal := normal, front := posA.dot normal + hA.x,
          sideNormal := rotA.col1, negSide := -(posA.dot rotA.col1) + hA.y,
          posSide := posA.dot rotA.col1 + hA.y,
          negEdge := EdgeNumbers.EDGE_3, posEdge := EdgeNumbers.EDGE_1,
          incident := computeIncidentEdge hB posB rotB normal }
    | Axis.FACE_A_Y =>
        { frontNormal := normal, front := posA.dot normal + hA.y,
          sideNormal := rotA.col0, negSide := -(posA.dot rotA.col0) + hA.x,
          posSide := posA.dot rotA.col0 + hA.x,
          negEdge := EdgeNumbers.EDGE_2, posEdge := EdgeNumbers.EDGE_4,
          incident := computeIncidentEdge hB posB rotB normal }
    | Axis.FACE_B_X =>
        { frontNormal := -normal, front := posB.dot (-normal) + hB.x,
          sideNormal := rotB.col1, negSide := -(posB.dot rotB.col1) + hB.y,
          posSide := posB.dot rotB.col1 + hB.y,
          negEdge := EdgeNumbers.EDGE_3, posEdge := EdgeNumbers.EDGE_1,
          incident := computeIncidentEdge hA posA rotA (-normal) }
    | Axis.FACE_B_Y =>
        { frontNormal := -normal, front := posB.dot (-normal) + hB.y,
          sideNormal := rotB.col0, negSide := -(posB.dot rotB.col0) + hB.x,
          posSide := posB.dot rotB.col0 + hB.x,
          negEdge := EdgeNumbers.EDGE_2, posEdge := EdgeNumbers.EDGE_4,
          incident := computeIncidentEdge hA posA rotA (-normal) }
  let clipPoints1 :=
    clipSegmentToLine st.incident.1 st.incident.2 (-st.sideNormal) st.negSide st.negEdge
  match clipPoints1 with
  | p0 :: p1 :: _ =>
      let clipPoints2 := clipSegmentToLine p0 p1 st.sideNormal st.posSide st.posEdge
      match clipPoints2 with
      | q0 :: q1 :: qrest =>
          (q0 :: q1 :: qrest).filterMap (fun cp =>
            let sep := st.frontNormal.dot cp.v - st.front
            if sep ≤ 0 then
              some { Pn := 0, Pt := 0, Pnb := 0,
                     position := cp.v - sep • st.frontNormal,
                     normal := normal, r1 := 0, r2 := 0, separation := sep,
                     mass_normal := 0, mass_tangent := 0, bias := 0,
                     edges :=
                       if axis = Axis.FACE_B_X ∨ axis = Axis.FACE_B_Y then
                         cp.edges.flip
                       else cp.edges }
            else none)
      | _ => []
  | _ => []

/-- The inner search loop of `Arbiter.update`: Python's `for c_old in
self.contacts: if c_new.edges == c_old.edges: break` leaves `c_old` equal to
`None` only when the list is empty; otherwise it is the first match if one
exists, and the *last element of the list* when no element matches (the loop
variable survives the loop). -/
def findOldContact (cNew : Contact) : List Contact → Option Contact
  | [] => none
  | [c] => some c
  | c :: c2 :: rest =>
      if cNew.edges = c.edges then some c else findOldContact cNew (c2 :: rest)

/-- `Arbiter.update`: merge freshly detected contacts with the previous
list.  When the search result is non-`None`, carry forward `Pn`, `Pt`, `Pnb`
(warm starting) or zero them when `warm` is off; otherwise keep the new
contact as is. -/
def arbiterUpdate (warm : Bool) (oldContacts newContacts : List Contact) :
    List Contact :=
  newContacts.map (fun cNew =>
    match findOldContact cNew oldContacts with
    | some cOld =>
        if warm then
          { cNew with Pn := cOld.Pn, Pt := cOld.Pt, Pnb := cOld.Pnb }
        else
          { cNew with Pn := 0, Pt := 0, Pnb := 0 }
    | none => cNew)

/-- Threads the two bodies of an arbiter through a per-contact action,
mirroring the sequential `for c in self.contacts` loops of `arbiter.py`. -/
def runContacts (f : Body × Body → Contact → (Body × Body) × Contact) :
    Body × Body → List Contact → (Body × Body) × List Contact
  | st, [] => (st, [])
  | st, c :: cs =>
      let r := f st c
      let rest := runContacts f r.1 cs
      (rest.1, r.2 :: rest.2)

/-- The loop body of `Arbiter.pre_step`: precompute `mass_normal`,
`mass_tangent` and `bias` for one contact and, when impulse accumulation is
on, re-apply the carried-forward impulse to both bodies. -/
def contactPreStep (accum poscor : Bool) (invDt : ℚ) (st : Body × Body)
    (c : Contact) : (Body × Body) × Contact :=
  let b1 := st.1
  let b2 := st.2
  let kAllowedPenetration : ℚ := 1/100
  let kBiasFactor : ℚ := if poscor then 1/5 else 0
  let r1 := c.position - b1.position
  let r2 := c.position - b2.position
  let rn1 := r1.dot c.normal
  let rn2 := r2.dot c.normal
  let kNormal := b1.inv_mass + b2.inv_mass
    + (b1.inv_I * (r1.dot r1 - rn1 * rn1) + b2.inv_I * (r2.dot r2 - rn2 * rn2))
  let massNormal := 1 / kNormal
  let tangent := crossVS c.normal 1
  let rt1 := r1.dot tangent
  let rt2 := r2.dot tangent
  let kTangent := b1.inv_mass + b2.inv_mass
    + (b1.inv_I * (r1.dot r1 - rt1 * rt1) + b2.inv_I * (r2.dot r2 - rt2 * rt2))
  let massTangent := 1 / kTangent
  let bias := -kBiasFactor * invDt * min 0 (c.separation + kAllowedPenetration)
  let c' := { c with mass_normal := massNormal, mass_tangent := massTangent,
                     bias := bias }
  if accum then
    let P := c.Pn • c.normal + c.Pt • tangent
    (({ b1 with velocity := b1.velocity - b1.inv_mass • P,
                angular_velocity := b1.angular_velocity - b1.inv_I * crossVV r1 P },
      { b2 with velocity := b2.velocity + b2.inv_mass • P,
                angular_velocity := b2.angular_velocity + b2.inv_I * crossVV r2 P }),
     c')
  else
    ((b1, b2), c')

/-- The loop body of `Arbiter.apply_impulse`: normal impulse (clamping the
accumulated total when `accum`, else the instantaneous delta), then friction
impulse clamped to the box friction cone. -/
def contactImpulseStep (accum : Bool) (friction : ℚ) (st : Body × Body)
    (c : Contact) : (Body × Body) × Contact :=
  let b1 := st.1
  let b2 := st.2
  let r1 := c.position - b1.position
  let r2 := c.position - b2.position
  let dv := b2.velocity + crossSV b2.angular_velocity r2
    - b1.velocity - crossSV b1.angular_velocity r1
  let vn := dv.dot c.normal
  let dPn0 := c.mass_normal * (-vn + c.bias)
  let PnNew := if accum then max (c.Pn + dPn0) 0 else c.Pn
  let dPn := if accum then PnNew - c.Pn else max dPn0 0
  let PnVec := dPn • c.normal
  let b1a := { b1 with velocity := b1.velocity - b1.inv_mass • PnVec,
                       angular_velocity := b1.angular_velocity - b1.inv_I * crossVV r1 PnVec }
  let b2a := { b2 with velocity := b2.velocity + b2.inv_mass • PnVec,
                       angular_velocity := b2.angular_velocity + b2.inv_I * crossVV r2 PnVec }
  let dv2 := b2a.velocity + crossSV b2a.angular_velocity r2
    - b1a.velocity - crossSV b1a.angular_velocity r1
  let tangent := crossVS c.normal 1
  let vt := dv2.dot tangent
  let dPt0 := c.mass_tangent * (-vt)
  let PtNew :=
    if accum then min (max (c.Pt + dPt0) (-(friction * PnNew))) (friction * PnNew)
    else c.Pt
  let dPt :=
    if accum then PtNew - c.Pt
    else min (max dPt0 (-(friction * dPn))) (friction * dPn)
  let PtVec := dPt • tangent
  let b1b := { b1a with velocity := b1a.velocity - b1a.inv_mass • PtVec,
                        angular_velocity := b1a.angular_velocity - b1a.inv_I * crossVV r1 PtVec }
  let b2b := { b2a with velocity := b2a.velocity + b2a.inv_mass • PtVec,
                        angular_velocity := b2a.angular_velocity + b2a.inv_I * crossVV r2 PtVec }
  ((b1b, b2b), { c with r1 := r1, r2 := r2, Pn := PnNew, Pt := PtNew })

/-- `Arbiter.pre_step`: the `for c in self.contacts` loop over
`contactPreStep`, threading the two bodies through. -/
def arbiterPreStep (accum poscor : Bool) (invDt : ℚ) (st : Body × Body)
    (cs : List Contact) : (Body × Body) × List Contact :=
  runContacts (contactPreStep accum poscor invDt) st cs

/-- `Arbiter.apply_impulse`: the `for c in self.contacts` loop over
`contactImpulseStep`, threading the two bodies through. -/
def arbiterApplyImpulse (accum : Bool) (friction : ℚ) (st : Body × Body)
    (cs : List Contact) : (Body × Body) × List Contact :=
  runContacts (contactImpulseStep accum friction) st cs

/-- A persistent contact manifold for one body pair (arbiter.py `Arbiter`).
Bodies are referenced by their index in the world's body store; `body_1 <
body_2` is the canonical order established by the key normalization. -/
structure Arbiter where
  body_1 : Nat
  body_2 : Nat
  contacts : List Contact
  friction : ℚ
deriving DecidableEq

/-- `Arbiter.__init__` for the pair `(i, j)` with `i < j` already in
canonical order: run `collide` immediately and combine friction as
`sqrt(friction_1 * friction_2)` (the square root map is the parameter
`sqrtF`). -/
def mkArbiter (cosF sinF sqrtF : ℚ → ℚ) (bodies : List Body) (i j : Nat) :
    Arbiter :=
  let bi := bodies.getD i default
  let bj := bodies.getD j default
  { body_1 := i, body_2 := j,
    contacts := collide cosF sinF bi bj,
    friction := sqrtF (bi.friction * bj.friction) }

/-- A point-to-point joint (joint.py `Joint`), bodies referenced by index. -/
structure Joint where
  body_1 : Nat
  body_2 : Nat
  local_anchor_1 : Vec2
  local_anchor_2 : Vec2
  P : Vec2
  M : Mat2
  r1 : Vec2
  r2 : Vec2
  bias : Vec2
  softness : ℚ
  bias_factor : ℚ
deriving DecidableEq

/-- `Joint.__init__` with both bodies and an anchor: store the anchor in
each body's local frame (`R^T @ (anchor - position)`), zero accumulated
impulse, `softness = 0`, `bias_factor = 0.2`. -/
def jointInit (cosF sinF : ℚ → ℚ) (b1 b2 : Body) (i j : Nat) (anchor : Vec2) :
    Joint :=
  let rot1 := rotMatrixOf cosF sinF b1
  let rot2 := rotMatrixOf cosF sinF b2
  { body_1 := i, body_2 := j,
    local_anchor_1 := rot1.transpose.mulVec (anchor - b1.position),
    local_anchor_2 := rot2.transpose.mulVec (anchor - b2.position),
    P := 0, M := ⟨0, 0, 0, 0⟩, r1 := 0, r2 := 0, bias := 0,
    softness := 0, bias_factor := 1/5 }

/-- `Joint.pre_step`: world-frame anchor offsets, effective-mass matrix
(inverted), positional bias, and warm-start application of the accumulated
impulse `P` (or its reset when warm starting is off). -/
def jointPreStep (cosF sinF : ℚ → ℚ) (warm poscor : Bool) (invDt : ℚ)
    (b1 b2 : Body) (jt : Joint) : Body × Body × Joint :=
  let rot1 := rotMatrixOf cosF sinF b1
  let rot2 := rotMatrixOf cosF sinF b2
  let r1 := rot1.mulVec jt.local_anchor_1
  let r2 := rot2.mulVec jt.local_anchor_2
  let K1 : Mat2 := ⟨b1.inv_mass + b2.inv_mass, 0, 0, b1.inv_mass + b2.inv_mass⟩
  let K2 : Mat2 := ⟨b1.inv_I * r1.y * r1.y, -(b1.inv_I * r1.x * r1.y),
                    -(b1.inv_I * r1.x * r1.y), b1.inv_I * r1.x * r1.x⟩
  let K3 : Mat2 := ⟨b2.inv_I * r2.y * r2.y, -(b2.inv_I * r2.x * r2.y),
                    -(b2.inv_I * r2.x * r2.y), b2.inv_I * r2.x * r2.x⟩
  let K := K1 + K2 + K3 + (⟨jt.softness, 0, 0, jt.softness⟩ : Mat2)
  let M := K.inverse
  let p1 := b1.position + r1
  let p2 := b2.position + r2
  let dp := p2 - p1
  let bias : Vec2 :=
    if poscor then (-(jt.bias_factor * invDt)) • dp else 0
  if warm then
    ({ b1 with velocity := b1.velocity - b1.inv_mass • jt.P,
               angular_velocity := b1.angular_velocity - b1.inv_I * crossVV r1 jt.P },
     { b2 with velocity := b2.velocity + b2.inv_mass • jt.P,
               angular_velocity := b2.angular_velocity + b2.inv_I * crossVV r2 jt.P },
     { jt with M := M, r1 := r1, r2 := r2, bias := bias })
  else
    (b1, b2, { jt with M := M, r1 := r1, r2 := r2, bias := bias, P := 0 })

/-- `Joint.apply_impulse` as written in the source: the relative velocity
`dv` is `body_2.velocity + cross(w2, r2) - cross(w1, r1)` — the term
`- body_1.velocity` is absent. -/
def jointApplyImpulse (b1 b2 : Body) (jt : Joint) : Body × Body × Joint :=
  let dv := b2.velocity + crossSV b2.angular_velocity jt.r2
    - crossSV b1.angular_velocity jt.r1
  let impulse := jt.M.mulVec (jt.bias - dv - jt.softness • jt.P)
  let b1' := { b1 with velocity := b1.velocity - b1.inv_mass • impulse,
                       angular_velocity := b1.angular_velocity - b1.inv_I * crossVV jt.r1 impulse }
  let b2' := { b2 with velocity := b2.velocity + b2.inv_mass • impulse,
                       angular_velocity := b2.angular_velocity + b2.inv_I * crossVV jt.r2 impulse }
  (b1', b2', { jt with P := jt.P + impulse })

/-- The arbiter dictionary: an association list keyed by the canonical
(ordered) pair of body indices, insertion-ordered like a Python dict. -/
def ArbMap := List ((Nat × Nat) × Arbiter)

/-- Dictionary lookup `self.arbiters[key]` / `key in self.arbiters`. -/
def arbLookup : List ((Nat × Nat) × Arbiter) → Nat × Nat → Option Arbiter
  | [], _ => none
  | e :: es, k => if e.1 = k then some e.2 else arbLookup es k

/-- The world (world.py `World`): bodies and joints in insertion order plus
the arbiter dictionary. -/
structure World where
  gravity : Vec2
  iterations : Nat
  bodies : List Body
  joints : List Joint
  arbiters : List ((Nat × Nat) × Arbiter)

/-- The body of the double loop in `World.broadphase` for the pair
`p = (i, j)` with `i < j`: skip both-static pairs; otherwise run collision
and insert / update / remove the arbiter for the pair's key. -/
def broadphasePair (cosF sinF sqrtF : ℚ → ℚ) (warm : Bool)
    (bodies : List Body) (arbs : List ((Nat × Nat) × Arbiter)) (p : Nat × Nat) :
    List ((Nat × Nat) × Arbiter) :=
  let bi := bodies.getD p.1 default
  let bj := bodies.getD p.2 default
  if bi.inv_mass = 0 ∧ bj.inv_mass = 0 then arbs
  else
    let newArb := mkArbiter cosF sinF sqrtF bodies p.1 p.2
    if 0 < newArb.contacts.length then
      match arbLookup arbs p with
      | none => arbs ++ [(p, newArb)]
      | some _ =>
          arbs.map (fun e =>
            if e.1 = p then
              (e.1, { e.2 with contacts := arbiterUpdate warm e.2.contacts newArb.contacts })
            else e)
    else
      arbs.filter (fun e => e.1 ≠ p)

/-- The loop order of `World.broadphase`: `for i, bi in enumerate(bodies):
for j, bj in enumerate(bodies[i+1:])`, i.e. all pairs `(i, j)` with
`i < j < n`, `j` innermost ascending. -/
def pairList (n : Nat) : List (Nat × Nat) :=
  (List.range n).flatMap (fun i =>
    ((List.range n).filter (fun j => i < j)).map (fun j => (i, j)))

/-- `World.broadphase`: all-pairs scan updating the arbiter dictionary. -/
def broadphase (cosF sinF sqrtF : ℚ → ℚ) (warm : Bool) (w : World) : World :=
  let arbs := (pairList w.bodies.length).foldl
    (broadphasePair cosF sinF sqrtF warm w.bodies) w.arbiters
  { w with arbiters := arbs }

/-- The force-integration step of `World.step` for one body: static bodies
(`inv_mass == 0`) are skipped. -/
def integrateForceBody (gravity : Vec2) (dt : ℚ) (b : Body) : Body :=
  if b.inv_mass = 0 then b
  else
    { b with velocity := b.velocity + dt • (gravity + b.inv_mass • b.force),
             angular_velocity := b.angular_velocity + dt * b.inv_I * b.torque }

/-- The position-integration step of `World.step` for one body: advance pose
by the (final) velocities and reset force and torque. -/
def integrateVelocityBody (dt : ℚ) (b : Body) : Body :=
  { b with position := b.position + dt • b.velocity,
           rotation := b.rotation + dt * b.angular_velocity,
           force := 0, torque := 0 }

/-- Run a per-arbiter action (`pre_step` or `apply_impulse`) over every
arbiter of the dictionary in order, reading the two bodies from the store
and writing back the mutated bodies and contacts. -/
def arbitersPhase (g : Arbiter → Body × Body → List Contact → (Body × Body) × List Contact) :
    List Body → List ((Nat × Nat) × Arbiter) →
      List Body × List ((Nat × Nat) × Arbiter)
  | bodies, [] => (bodies, [])
  | bodies, e :: es =>
      let b1 := bodies.getD e.2.body_1 default
      let b2 := bodies.getD e.2.body_2 default
      let r := g e.2 (b1, b2) e.2.contacts
      let bodies' := (bodies.set e.2.body_1 r.1.1).set e.2.body_2 r.1.2
      let rest := arbitersPhase g bodies' es
      (rest.1, (e.1, { e.2 with contacts := r.2 }) :: rest.2)

/-- Run a per-joint action (`pre_step` or `apply_impulse`) over every joint
in order, reading the two bodies from the store and writing back. -/
def jointsPhase (g : Body → Body → Joint → Body × Body × Joint) :
    List Body → List Joint → List Body × List Joint
  | bodies, [] => (bodies, [])
  | bodies, jt :: jts =>
      let b1 := bodies.getD jt.body_1 default
      let b2 := bodies.getD jt.body_2 default
      let r := g b1 b2 jt
      let bodies' := (bodies.set jt.body_1 r.1).set jt.body_2 r.2.1
      let rest := jointsPhase g bodies' jts
      (rest.1, r.2.2 :: rest.2)

/-- One solver iteration of `World.step`: every arbiter's `apply_impulse`,
then every joint's `apply_impulse`. -/
def solveIteration (accum : Bool)
    (s : List Body × List ((Nat × Nat) × Arbiter) × List Joint) :
    List Body × List ((Nat × Nat) × Arbiter) × List Joint :=
  let r1 := arbitersPhase
    (fun arb st cs => arbiterApplyImpulse accum arb.friction st cs)
    s.1 s.2.1
  let r2 := jointsPhase jointApplyImpulse r1.1 s.2.2
  (r2.1, r1.2, r2.2)

/-- `for _ in range(iterations)` around `solveIteration`. -/
def solveLoop (accum : Bool) :
    Nat → List Body × List ((Nat × Nat) × Arbiter) × List Joint →
      List Body × List ((Nat × Nat) × Arbiter) × List Joint
  | 0, s => s
  | n + 1, s => solveLoop accum n (solveIteration accum s)

/-- `inv_dt = 1.0 / dt if dt > 0 else 0.0` at the top of `World.step`. -/
def invDtOf (dt : ℚ) : ℚ := if dt > 0 then 1 / dt else 0

/-- `World.step`: broadphase → force integration → contact pre-steps →
joint pre-steps → solver iterations → position integration. -/
def step (cosF sinF sqrtF : ℚ → ℚ) (warm accum poscor : Bool) (w : World)
    (dt : ℚ) : World :=
  let invDt := invDtOf dt
  let w1 := broadphase cosF sinF sqrtF warm w
  let bodies1 := w1.bodies.map (integrateForceBody w1.gravity dt)
  let r2 := arbitersPhase
    (fun _ st cs => arbiterPreStep accum poscor invDt st cs)
    bodies1 w1.arbiters
  let r3 := jointsPhase (jointPreStep cosF sinF warm poscor invDt) r2.1 w1.joints
  let r4 := solveLoop accum w1.iterations (r3.1, r2.2, r3.2)
  let bodies5 := r4.1.map (integrateVelocityBody dt)
  { w1 with bodies := bodies5, arbiters := r4.2.1, joints := r4.2.2 }

/-! ### Basic vector algebra lemmas -/

@[simp] theorem Vec2.zero_smul_vec (v : Vec2) : (0 : ℚ) • v = 0 := by
  apply Vec2.ext_xy <;> simp

@[simp] theorem Vec2.sub_zero_vec (v : Vec2) : v - 0 = v := by
  apply Vec2.ext_xy <;> simp

@[simp] theorem Vec2.add_zero_vec (v : Vec2) : v + 0 = v := by
  apply Vec2.ext_xy <;> simp

/-! ### Claim C3 -/

/-- C3: the claim says constructing a `Body` with a non-positive finite mass
raises a configuration error; the code has no such check — at mass `-1` the
constructor completes normally and silently divides, producing the inverse
mass `1 / (-1) = -1` (and a negative inertia likewise). -/
theorem bodyInit_negative_mass_divides_silently :
    (bodyInit ⟨1, 1⟩ (Mass.finite (-1))).inv_mass = -1
      ∧ (bodyInit ⟨1, 1⟩ (Mass.finite (-1))).I
          = Mass.finite (-(1/6)) := by
  constructor
  · norm_num [bodyInit]
  · norm_num [bodyInit, Vec2.dot]

/-! ### Claim C1 -/

/-- Input data exhibiting the missing `- body_1.velocity` term in
`Joint.apply_impulse`: body 1 moves with velocity `(1, 0)`, everything else
is at rest, the effective mass matrix is the identity and both anchor
offsets are zero. -/
def jaiBody1 : Body := { bodyInit ⟨1, 1⟩ (Mass.finite 1) with velocity := ⟨1, 0⟩ }

/-- Second body for the `Joint.apply_impulse` evaluation: at rest. -/
def jaiBody2 : Body := bodyInit ⟨1, 1⟩ (Mass.finite 1)

/-- Joint state for the `Joint.apply_impulse` evaluation: identity `M`,
zero `bias`, `r1 = r2 = 0`, zero accumulated `P`, zero softness. -/
def jaiJoint : Joint :=
  { body_1 := 0, body_2 := 1, local_anchor_1 := 0, local_anchor_2 := 0,
    P := 0, M := ⟨1, 0, 0, 1⟩, r1 := 0, r2 := 0, bias := 0,
    softness := 0, bias_factor := 1/5 }

/-- C1: the claim says `Joint.apply_impulse` solves
`impulse = M (bias - dv - softness P)` with
`dv = v2 + w2 x r2 - v1 - w1 x r1`.  The code omits the `- v1` term: here
`v1 = (1,0)` and every other quantity vanishes, so that formula gives
`dv = (-1, 0)` and `impulse = (1, 0)`, yet the code computes `impulse = 0`
and leaves both bodies and the accumulated `P` untouched. -/
theorem jointApplyImpulse_drops_body1_velocity :
    (jointApplyImpulse jaiBody1 jaiBody2 jaiJoint).2.2.P = 0
      ∧ (jointApplyImpulse jaiBody1 jaiBody2 jaiJoint).1.velocity = ⟨1, 0⟩
      ∧ (jointApplyImpulse jaiBody1 jaiBody2 jaiJoint).2.1.velocity = 0 := by
  refine ⟨?_, ?_, ?_⟩ <;>
    norm_num [jointApplyImpulse, jaiBody1, jaiBody2, jaiJoint, bodyInit,
      crossSV, crossVV, Mat2.mulVec, Vec2.dot] <;>
      apply Vec2.ext_xy <;> norm_num

/-! ### Claim C2 -/

/-- An edge identity distinct from the default all-`NO_EDGE` identity. -/
def edgesA : Edges :=
  ⟨EdgeNumbers.EDGE_1, EdgeNumbers.EDGE_2, EdgeNumbers.EDGE_3, EdgeNumbers.EDGE_4⟩

/-- Previous-frame contact carrying accumulated impulses, tagged `edgesA`. -/
def oldContactA : Contact := { Pn := 5, Pt := 7, Pnb := 9, edges := edgesA }

/-- Newly detected contact whose edge identity (all `NO_EDGE`) matches no
previous contact. -/
def newContactB : Contact := {}

/-- C2: the claim says a new contact matching no previous contact ends
`Arbiter.update` with zero impulses.  Because the Python loop variable
survives the search loop, the unmatched `newContactB` is treated as matched
against the *last* old contact and, with warm starting enabled, inherits its
`Pn = 5`, `Pt = 7`, `Pnb = 9` instead of zero. -/
theorem arbiterUpdate_unmatched_contact_inherits_impulse :
    newContactB.edges ≠ oldContactA.edges
      ∧ arbiterUpdate true [oldContactA] [newContactB]
          = [{ newContactB with Pn := 5, Pt := 7, Pnb := 9 }] := by
  constructor
  · decide
  · rfl

/-! ### Claims C5 and C6: solver clamping invariants -/

theorem contactImpulseStep_Pn_nonneg (friction : ℚ) (st : Body × Body)
    (c : Contact) : 0 ≤ ((contactImpulseStep true friction st c).2).Pn := by
  simp only [contactImpulseStep, if_true]
  exact le_max_right _ _

theorem runContacts_impulse_Pn_nonneg (friction : ℚ) :
    ∀ (cs : List Contact) (st : Body × Body),
      ∀ c ∈ (runContacts (contactImpulseStep true friction) st cs).2, 0 ≤ c.Pn := by
  intro cs
  induction cs with
  | nil => intro st c hc; simp [runContacts] at hc
  | cons c0 cs ih =>
      intro st c hc
      simp only [runContacts, List.mem_cons] at hc
      rcases hc with hc | hc
      · subst hc; exact contactImpulseStep_Pn_nonneg friction st c0
      · exact ih _ c hc

/-- C5: with `ACCUMULATE_IMPULSES` enabled, after `Arbiter.apply_impulse`
every contact's accumulated normal impulse `Pn` is non-negative (the code
clamps the running total with `max(Pn_0 + d_Pn, 0.0)`); this holds for every
starting state, in particular for the non-negative `Pn` produced by
`collide` and `update`. -/
theorem arbiterApplyImpulse_accumulate_Pn_nonneg (friction : ℚ)
    (st : Body × Body) (cs : List Contact) :
    ∀ c ∈ (arbiterApplyImpulse true friction st cs).2, 0 ≤ c.Pn :=
  runContacts_impulse_Pn_nonneg friction cs st

/-- A sample body used to instantiate the clamping theorems. -/
def sBody : Body := bodyInit 0 Mass.inf

theorem sBody_impulse_mem :
    ({} : Contact) ∈ (arbiterApplyImpulse true 1 (sBody, sBody) [{}]).2 := by
  simp only [arbiterApplyImpulse, runContacts, contactImpulseStep, crossSV,
    crossVS, crossVV, Vec2.dot, bodyInit, sBody, Vec2.zero_def]
  norm_num

/-- Witness for the `Pn` non-negativity theorem at a concrete input. -/
theorem arbiterApplyImpulse_accumulate_Pn_nonneg_witness :
    ({} : Contact) ∈ (arbiterApplyImpulse true 1 (sBody, sBody) [{}]).2
      ∧ 0 ≤ ({} : Contact).Pn :=
  ⟨sBody_impulse_mem,
   arbiterApplyImpulse_accumulate_Pn_nonneg 1 (sBody, sBody) [{}] {} sBody_impulse_mem⟩

theorem clamp_abs_le {x m : ℚ} (hm : 0 ≤ m) : |min (max x (-m)) m| ≤ m := by
  rw [abs_le]
  exact ⟨le_min (le_max_right _ _) (neg_le_self hm), min_le_right _ _⟩

theorem contactImpulseStep_friction_cone (accum : Bool) (friction : ℚ)
    (st : Body × Body) (c : Contact) (hf : 0 ≤ friction)
    (hc : accum = false → |c.Pt| ≤ friction * c.Pn) :
    |((contactImpulseStep accum friction st c).2).Pt|
      ≤ friction * ((contactImpulseStep accum friction st c).2).Pn := by
  cases accum with
  | false => simpa [contactImpulseStep] using hc rfl
  | true =>
      simp only [contactImpulseStep, if_true]
      exact clamp_abs_le (mul_nonneg hf (le_max_right _ _))

theorem runContacts_friction_cone (accum : Bool) (friction : ℚ)
    (hf : 0 ≤ friction) :
    ∀ (cs : List Contact) (st : Body × Body),
      (accum = false → ∀ c ∈ cs, |c.Pt| ≤ friction * c.Pn) →
      ∀ c ∈ (runContacts (contactImpulseStep accum friction) st cs).2,
        |c.Pt| ≤ friction * c.Pn := by
  intro cs
  induction cs with
  | nil => intro st _ c hc; simp [runContacts] at hc
  | cons c0 cs ih =>
      intro st hin c hc
      simp only [runContacts, List.mem_cons] at hc
      rcases hc with hc | hc
      · subst hc
        exact contactImpulseStep_friction_cone accum friction st c0 hf
          (fun h => hin h c0 (List.mem_cons_self c0 cs))
      · exact ih _ (fun h c' hc' => hin h c' (List.mem_cons_of_mem c0 hc')) c hc

/-- C6: after `Arbiter.apply_impulse` every contact satisfies the friction
cone bound `|Pt| <= friction * Pn`.  The combined friction coefficient is a
square root in the source, hence the hypothesis `0 ≤ friction`; with
accumulation on, the clamp to `±friction * Pn` establishes the bound
unconditionally, and with accumulation off the call never modifies `Pt` or
`Pn`, so the bound persists from the (initially all-zero) input state. -/
theorem arbiterApplyImpulse_friction_cone (accum : Bool) (friction : ℚ)
    (st : Body × Body) (cs : List Contact) (hf : 0 ≤ friction)
    (hin : accum = false → ∀ c ∈ cs, |c.Pt| ≤ friction * c.Pn) :
    ∀ c ∈ (arbiterApplyImpulse accum friction st cs).2,
      |c.Pt| ≤ friction * c.Pn :=
  runContacts_friction_cone accum friction hf cs st hin

/-- Witness for the friction-cone theorem at a concrete input. -/
theorem arbiterApplyImpulse_friction_cone_witness :
    ((0 : ℚ) ≤ 1 ∧ ({} : Contact) ∈ (arbiterApplyImpulse true 1 (sBody, sBody) [{}]).2)
      ∧ |({} : Contact).Pt| ≤ 1 * ({} : Contact).Pn :=
  ⟨⟨by norm_num, sBody_impulse_mem⟩,
   arbiterApplyImpulse_friction_cone true 1 (sBody, sBody) [{}]
     (by norm_num) (by simp) {} sBody_impulse_mem⟩

/-! ### Claim C8: joint anchor preservation -/

/-- C8: immediately after `Joint.__init__` (no intervening motion), the
world anchors reconstructed from the stored local anchors,
`p_k = body_k.position + R_k @ local_anchor_k`, coincide with each other and
with the original anchor.  The hypotheses state that `(cosF, sinF)` produce
a genuine rotation (cos² + sin² = 1), which holds for exact cosine/sine. -/
theorem jointInit_anchor_preserved (cosF sinF : ℚ → ℚ) (b1 b2 : Body)
    (i j : Nat) (anchor : Vec2)
    (h1 : cosF b1.rotation ^ 2 + sinF b1.rotation ^ 2 = 1)
    (h2 : cosF b2.rotation ^ 2 + sinF b2.rotation ^ 2 = 1) :
    b1.position + (rotMatrixOf cosF sinF b1).mulVec
        (jointInit cosF sinF b1 b2 i j anchor).local_anchor_1 = anchor
    ∧ b2.position + (rotMatrixOf cosF sinF b2).mulVec
        (jointInit cosF sinF b1 b2 i j anchor).local_anchor_2 = anchor
    ∧ b1.position + (rotMatrixOf cosF sinF b1).mulVec
        (jointInit cosF sinF b1 b2 i j anchor).local_anchor_1
      = b2.position + (rotMatrixOf cosF sinF b2).mulVec
        (jointInit cosF sinF b1 b2 i j anchor).local_anchor_2 := by
  have e1 : b1.position + (rotMatrixOf cosF sinF b1).mulVec
      (jointInit cosF sinF b1 b2 i j anchor).local_anchor_1 = anchor := by
    simp only [jointInit, rotMatrixOf, rotationMatrix, Mat2.mulVec,
      Mat2.transpose, Vec2.sub_def, Vec2.add_def]
    apply Vec2.ext_xy
    · linear_combination (anchor.x - b1.position.x) * h1
    · linear_combination (anchor.y - b1.position.y) * h1
  have e2 : b2.position + (rotMatrixOf cosF sinF b2).mulVec
      (jointInit cosF sinF b1 b2 i j anchor).local_anchor_2 = anchor := by
    simp only [jointInit, rotMatrixOf, rotationMatrix, Mat2.mulVec,
      Mat2.transpose, Vec2.sub_def, Vec2.add_def]
    apply Vec2.ext_xy
    · linear_combination (anchor.x - b2.position.x) * h2
    · linear_combination (anchor.y - b2.position.y) * h2
  exact ⟨e1, e2, e1.trans e2.symm⟩

/-- First sample body for the anchor-preservation witness, posed away from
the origin with a nonzero rotation angle. -/
def japBody1 : Body :=
  { bodyInit ⟨1, 1⟩ (Mass.finite 1) with position := ⟨1, 2⟩, rotation := 1 }

/-- Second sample body for the anchor-preservation witness. -/
def japBody2 : Body :=
  { bodyInit ⟨1, 1⟩ (Mass.finite 1) with position := ⟨3, -1⟩, rotation := 2 }

/-- Witness for anchor preservation: the rotation maps send every angle to
cosine `3/5` and sine `4/5` (an exact Pythagorean rotation), the bodies sit
at `(1, 2)` and `(3, -1)`, the anchor at `(2, 2)`. -/
theorem jointInit_anchor_preserved_witness :
    (((3 : ℚ)/5) ^ 2 + ((4 : ℚ)/5) ^ 2 = 1)
    ∧ japBody1.position + (rotMatrixOf (fun _ => 3/5) (fun _ => 4/5) japBody1).mulVec
        (jointInit (fun _ => 3/5) (fun _ => 4/5) japBody1 japBody2 0 1 ⟨2, 2⟩).local_anchor_1
      = ⟨2, 2⟩ := by
  have h1 : ((3 : ℚ)/5) ^ 2 + ((4 : ℚ)/5) ^ 2 = 1 := by norm_num
  exact ⟨h1, (jointInit_anchor_preserved (fun _ => 3/5) (fun _ => 4/5)
    japBody1 japBody2 0 1 ⟨2, 2⟩ h1 h1).1⟩

/-! ### Claim C4: static bodies never change velocity, never move -/

@[simp] theorem Vec2.smul_zero_vec (k : ℚ) : k • (0 : Vec2) = 0 := by
  apply Vec2.ext_xy <;> simp

theorem bodyExt {a b : Body} (h1 : a.width = b.width) (h2 : a.mass = b.mass)
    (h3 : a.position = b.position) (h4 : a.rotation = b.rotation)
    (h5 : a.velocity = b.velocity) (h6 : a.angular_velocity = b.angular_velocity)
    (h7 : a.force = b.force) (h8 : a.torque = b.torque)
    (h9 : a.friction = b.friction) (h10 : a.inv_mass = b.inv_mass)
    (h11 : a.I = b.I) (h12 : a.inv_I = b.inv_I) : a = b := by
  cases a; cases b
  simp only at h1 h2 h3 h4 h5 h6 h7 h8 h9 h10 h11 h12
  subst h1; subst h2; subst h3; subst h4; subst h5; subst h6
  subst h7; subst h8; subst h9; subst h10; subst h11; subst h12
  rfl

theorem contactPreStep_static_fst (accum poscor : Bool) (invDt : ℚ)
    (b1 b2 : Body) (c : Contact) (hm : b1.inv_mass = 0) (hi : b1.inv_I = 0) :
    ((contactPreStep accum poscor invDt (b1, b2) c).1).1 = b1 := by
  cases accum with
  | false => rfl
  | true =>
      simp only [contactPreStep, if_true]
      refine bodyExt rfl rfl rfl rfl ?_ ?_ rfl rfl rfl rfl rfl rfl <;>
        simp [hm, hi]

theorem contactPreStep_static_snd (accum poscor : Bool) (invDt : ℚ)
    (b1 b2 : Body) (c : Contact) (hm : b2.inv_mass = 0) (hi : b2.inv_I = 0) :
    ((contactPreStep accum poscor invDt (b1, b2) c).1).2 = b2 := by
  cases accum with
  | false => rfl
  | true =>
      simp only [contactPreStep, if_true]
      refine bodyExt rfl rfl rfl rfl ?_ ?_ rfl rfl rfl rfl rfl rfl <;>
        simp [hm, hi]

theorem contactImpulseStep_static_fst (accum : Bool) (friction : ℚ)
    (b1 b2 : Body) (c : Contact) (hm : b1.inv_mass = 0) (hi : b1.inv_I = 0) :
    ((contactImpulseStep accum friction (b1, b2) c).1).1 = b1 := by
  simp only [contactImpulseStep]
  refine bodyExt rfl rfl rfl rfl ?_ ?_ rfl rfl rfl rfl rfl rfl <;>
    simp [hm, hi]

theorem contactImpulseStep_static_snd (accum : Bool) (friction : ℚ)
    (b1 b2 : Body) (c : Contact) (hm : b2.inv_mass = 0) (hi : b2.inv_I = 0) :
    ((contactImpulseStep accum friction (b1, b2) c).1).2 = b2 := by
  simp only [contactImpulseStep]
  refine bodyExt rfl rfl rfl rfl ?_ ?_ rfl rfl rfl rfl rfl rfl <;>
    simp [hm, hi]

theorem runContacts_static_fst
    (f : Body × Body → Contact → (Body × Body) × Contact)
    (hf : ∀ b1 b2 c, b1.inv_mass = 0 → b1.inv_I = 0 → ((f (b1, b2) c).1).1 = b1) :
    ∀ (cs : List Contact) (b1 b2 : Body), b1.inv_mass = 0 → b1.inv_I = 0 →
      ((runContacts f (b1, b2) cs).1).1 = b1 := by
  intro cs
  induction cs with
  | nil => intro b1 b2 hm hi; rfl
  | cons c0 cs ih =>
      intro b1 b2 hm hi
      have h1 := hf b1 b2 c0 hm hi
      rcases hst : f (b1, b2) c0 with ⟨⟨b1', b2'⟩, c'⟩
      rw [hst] at h1
      simp only at h1
      subst h1
      simp only [runContacts, hst]
      exact ih _ _ hm hi

theorem runContacts_static_snd
    (f : Body × Body → Contact → (Body × Body) × Contact)
    (hf : ∀ b1 b2 c, b2.inv_mass = 0 → b2.inv_I = 0 → ((f (b1, b2) c).1).2 = b2) :
    ∀ (cs : List Contact) (b1 b2 : Body), b2.inv_mass = 0 → b2.inv_I = 0 →
      ((runContacts f (b1, b2) cs).1).2 = b2 := by
  intro cs
  induction cs with
  | nil => intro b1 b2 hm hi; rfl
  | cons c0 cs ih =>
      intro b1 b2 hm hi
      have h1 := hf b1 b2 c0 hm hi
      rcases hst : f (b1, b2) c0 with ⟨⟨b1', b2'⟩, c'⟩
      rw [hst] at h1
      simp only at h1
      subst h1
      simp only [runContacts, hst]
      exact ih _ _ hm hi

theorem jointPreStep_static_fst (cosF sinF : ℚ → ℚ) (warm poscor : Bool)
    (invDt : ℚ) (b1 b2 : Body) (jt : Joint)
    (hm : b1.inv_mass = 0) (hi : b1.inv_I = 0) :
    (jointPreStep cosF sinF warm poscor invDt b1 b2 jt).1 = b1 := by
  cases warm with
  | false => rfl
  | true =>
      simp only [jointPreStep, if_true]
      refine bodyExt rfl rfl rfl rfl ?_ ?_ rfl rfl rfl rfl rfl rfl <;>
        simp [hm, hi]

theorem jointPreStep_static_snd (cosF sinF : ℚ → ℚ) (warm poscor : Bool)
    (invDt : ℚ) (b1 b2 : Body) (jt : Joint)
    (hm : b2.inv_mass = 0) (hi : b2.inv_I = 0) :
    (jointPreStep cosF sinF warm poscor invDt b1 b2 jt).2.1 = b2 := by
  cases warm with
  | false => rfl
  | true =>
      simp only [jointPreStep, if_true]
      refine bodyExt rfl rfl rfl rfl ?_ ?_ rfl rfl rfl rfl rfl rfl <;>
        simp [hm, hi]

theorem jointApplyImpulse_static_fst (b1 b2 : Body) (jt : Joint)
    (hm : b1.inv_mass = 0) (hi : b1.inv_I = 0) :
    (jointApplyImpulse b1 b2 jt).1 = b1 := by
  simp only [jointApplyImpulse]
  refine bodyExt rfl rfl rfl rfl ?_ ?_ rfl rfl rfl rfl rfl rfl <;>
    simp [hm, hi]

theorem jointApplyImpulse_static_snd (b1 b2 : Body) (jt : Joint)
    (hm : b2.inv_mass = 0) (hi : b2.inv_I = 0) :
    (jointApplyImpulse b1 b2 jt).2.1 = b2 := by
  simp only [jointApplyImpulse]
  refine bodyExt rfl rfl rfl rfl ?_ ?_ rfl rfl rfl rfl rfl rfl <;>
    simp [hm, hi]

/-- C4: a body constructed with infinite mass has `inv_mass = 0`,
`inv_I = 0` and zero velocities, and every engine operation — force
integration in `World.step`, `Arbiter.pre_step` / `apply_impulse` (in either
body slot), `Joint.pre_step` / `apply_impulse` (in either slot), and
`Body.add_force` — returns the static body entirely unchanged in the body
slots (in particular its velocity and angular velocity); since its velocity
stays zero, position integration leaves its pose unchanged, so the body
never moves.  `inv_mass`/`inv_I` are never written by any operation, so the
hypotheses are preserved forever. -/
theorem static_body_invariant (wdim g f : Vec2) (dt invDt friction : ℚ)
    (cosF sinF : ℚ → ℚ) (warm accum poscor : Bool)
    (b other : Body) (cs : List Contact) (jt : Joint)
    (hm : b.inv_mass = 0) (hi : b.inv_I = 0) :
    ((bodyInit wdim Mass.inf).inv_mass = 0 ∧ (bodyInit wdim Mass.inf).inv_I = 0
      ∧ (bodyInit wdim Mass.inf).velocity = 0
      ∧ (bodyInit wdim Mass.inf).angular_velocity = 0)
    ∧ integrateForceBody g dt b = b
    ∧ ((addForce b f).velocity = b.velocity
        ∧ (addForce b f).angular_velocity = b.angular_velocity)
    ∧ ((arbiterPreStep accum poscor invDt (b, other) cs).1).1 = b
    ∧ ((arbiterPreStep accum poscor invDt (other, b) cs).1).2 = b
    ∧ ((arbiterApplyImpulse accum friction (b, other) cs).1).1 = b
    ∧ ((arbiterApplyImpulse accum friction (other, b) cs).1).2 = b
    ∧ (jointPreStep cosF sinF warm poscor invDt b other jt).1 = b
    ∧ (jointPreStep cosF sinF warm poscor invDt other b jt).2.1 = b
    ∧ (jointApplyImpulse b other jt).1 = b
    ∧ (jointApplyImpulse other b jt).2.1 = b
    ∧ (b.velocity = 0 → b.angular_velocity = 0 →
        (integrateVelocityBody dt b).position = b.position
          ∧ (integrateVelocityBody dt b).rotation = b.rotation) := by
  refine ⟨⟨rfl, rfl, rfl, rfl⟩, ?_, ⟨rfl, rfl⟩, ?_, ?_, ?_, ?_, ?_, ?_, ?_, ?_, ?_⟩
  · simp [integrateForceBody, hm]
  · exact runContacts_static_fst _
      (fun b1 b2 c => contactPreStep_static_fst accum poscor invDt b1 b2 c)
      cs b other hm hi
  · exact runContacts_static_snd _
      (fun b1 b2 c => contactPreStep_static_snd accum poscor invDt b1 b2 c)
      cs other b hm hi
  · exact runContacts_static_fst _
      (fun b1 b2 c => contactImpulseStep_static_fst accum friction b1 b2 c)
      cs b other hm hi
  · exact runContacts_static_snd _
      (fun b1 b2 c => contactImpulseStep_static_snd accum friction b1 b2 c)
      cs other b hm hi
  · exact jointPreStep_static_fst cosF sinF warm poscor invDt b other jt hm hi
  · exact jointPreStep_static_snd cosF sinF warm poscor invDt other b jt hm hi
  · exact jointApplyImpulse_static_fst b other jt hm hi
  · exact jointApplyImpulse_static_snd other b jt hm hi
  · intro hv hw
    constructor
    · simp [integrateVelocityBody, hv]
    · simp [integrateVelocityBody, hw]

/-- Witness for the static-body invariant: the static body produced by
`bodyInit` with infinite mass, alongside a dynamic unit box. -/
theorem static_body_invariant_witness :
    (sBody.inv_mass = 0 ∧ sBody.inv_I = 0)
    ∧ integrateForceBody ⟨0, -10⟩ (1/60) sBody = sBody := by
  have hm : sBody.inv_mass = 0 := rfl
  have hi : sBody.inv_I = 0 := rfl
  exact ⟨⟨hm, hi⟩,
    (static_body_invariant 0 ⟨0, -10⟩ 0 (1/60) 60 1 (fun _ => 1) (fun _ => 0)
      true true true sBody (bodyInit ⟨1, 1⟩ (Mass.finite 1)) [] jaiJoint
      hm hi).2.1⟩

/-! ### Claim C9: broadphase arbiter lifecycle -/

theorem arbLookup_append_single_ne (l : List ((Nat × Nat) × Arbiter))
    (k q : Nat × Nat) (a : Arbiter) (h : q ≠ k) :
    arbLookup (l ++ [(k, a)]) q = arbLookup l q := by
  induction l with
  | nil => simp [arbLookup, Ne.symm h]
  | cons e es ih =>
      simp only [List.cons_append, arbLookup]
      split
      · rfl
      · exact ih

theorem arbLookup_append_single_self (l : List ((Nat × Nat) × Arbiter))
    (k : Nat × Nat) (a : Arbiter) (h : arbLookup l k = none) :
    arbLookup (l ++ [(k, a)]) k = some a := by
  induction l with
  | nil => simp [arbLookup]
  | cons e es ih =>
      by_cases he : e.1 = k
      · simp [arbLookup, he] at h
      · simp only [arbLookup, if_neg he] at h
        simp only [List.cons_append, arbLookup, if_neg he]
        exact ih h

theorem arbLookup_map_update_ne (l : List ((Nat × Nat) × Arbiter))
    (p q : Nat × Nat) (g : Arbiter → Arbiter) (h : q ≠ p) :
    arbLookup (l.map (fun e => if e.1 = p then (e.1, g e.2) else e)) q
      = arbLookup l q := by
  have hpq : ¬(p = q) := fun hh => h hh.symm
  induction l with
  | nil => rfl
  | cons e es ih =>
      simp only [List.map_cons, arbLookup]
      by_cases hep : e.1 = p
      · simp [hep, hpq, ih]
      · simp only [if_neg hep]
        by_cases heq : e.1 = q
        · simp [heq]
        · simp [heq, ih]

theorem arbLookup_map_update_self (l : List ((Nat × Nat) × Arbiter))
    (p : Nat × Nat) (g : Arbiter → Arbiter) :
    arbLookup (l.map (fun e => if e.1 = p then (e.1, g e.2) else e)) p
      = (arbLookup l p).map g := by
  induction l with
  | nil => rfl
  | cons e es ih =>
      simp only [List.map_cons, arbLookup]
      by_cases hep : e.1 = p
      · simp [hep]
      · simp [hep, ih]

theorem arbLookup_filter_ne (l : List ((Nat × Nat) × Arbiter))
    (p q : Nat × Nat) (h : q ≠ p) :
    arbLookup (l.filter (fun e => e.1 ≠ p)) q = arbLookup l q := by
  induction l with
  | nil => rfl
  | cons e es ih =>
      by_cases hep : e.1 = p
      · have heq : ¬(e.1 = q) := by
          rw [hep]; exact fun hh => h hh.symm
        rw [List.filter_cons_of_neg (by simp [hep])]
        rw [ih]
        show arbLookup es q = if e.1 = q then some e.2 else arbLookup es q
        rw [if_neg heq]
      · rw [List.filter_cons_of_pos (by simp [hep])]
        show (if e.1 = q then some e.2
            else arbLookup (es.filter (fun e => e.1 ≠ p)) q)
          = if e.1 = q then some e.2 else arbLookup es q
        by_cases heq : e.1 = q
        · rw [if_pos heq, if_pos heq]
        · rw [if_neg heq, if_neg heq]
          exact ih

theorem arbLookup_filter_self (l : List ((Nat × Nat) × Arbiter))
    (p : Nat × Nat) :
    arbLookup (l.filter (fun e => e.1 ≠ p)) p = none := by
  induction l with
  | nil => rfl
  | cons e es ih =>
      by_cases hep : e.1 = p
      · rw [List.filter_cons_of_neg (by simp [hep])]
        exact ih
      · rw [List.filter_cons_of_pos (by simp [hep])]
        show (if e.1 = p then some e.2
            else arbLookup (es.filter (fun e => e.1 ≠ p)) p) = none
        rw [if_neg hep]
        exact ih

theorem broadphasePair_lookup_ne (cosF sinF sqrtF : ℚ → ℚ) (warm : Bool)
    (bodies : List Body) (arbs : List ((Nat × Nat) × Arbiter))
    (p q : Nat × Nat) (h : q ≠ p) :
    arbLookup (broadphasePair cosF sinF sqrtF warm bodies arbs p) q
      = arbLookup arbs q := by
  by_cases hs : (bodies.getD p.1 default).inv_mass = 0
      ∧ (bodies.getD p.2 default).inv_mass = 0
  · simp only [broadphasePair, if_pos hs]
  · by_cases hc : 0 < (mkArbiter cosF sinF sqrtF bodies p.1 p.2).contacts.length
    · rcases hl : arbLookup arbs p with _ | a
      · simp only [broadphasePair, if_neg hs, if_pos hc, hl]
        exact arbLookup_append_single_ne _ _ _ _ h
      · simp only [broadphasePair, if_neg hs, if_pos hc, hl]
        exact arbLookup_map_update_ne _ p q
          (fun a => { a with contacts := (arbiterUpdate warm a.contacts (mkArbiter cosF sinF sqrtF bodies p.1 p.2).contacts) }) h
    · simp only [broadphasePair, if_neg hs, if_neg hc]
      exact arbLookup_filter_ne _ _ _ h

theorem broadphasePair_lookup_self (cosF sinF sqrtF : ℚ → ℚ) (warm : Bool)
    (bodies : List Body) (arbs : List ((Nat × Nat) × Arbiter)) (p : Nat × Nat)
    (hs : ¬((bodies.getD p.1 default).inv_mass = 0
        ∧ (bodies.getD p.2 default).inv_mass = 0)) :
    ((arbLookup (broadphasePair cosF sinF sqrtF warm bodies arbs p) p).isSome = true
      ↔ collide cosF sinF (bodies.getD p.1 default) (bodies.getD p.2 default) ≠ []) := by
  by_cases hc : 0 < (mkArbiter cosF sinF sqrtF bodies p.1 p.2).contacts.length
  · have hc' : 0 < (collide cosF sinF (bodies.getD p.1 default)
        (bodies.getD p.2 default)).length := hc
    have hcol : collide cosF sinF (bodies.getD p.1 default)
        (bodies.getD p.2 default) ≠ [] := by
      intro hnil
      rw [hnil] at hc'
      exact absurd hc' (by simp)
    rcases hl : arbLookup arbs p with _ | a
    · simp only [broadphasePair, if_neg hs, if_pos hc, hl]
      rw [arbLookup_append_single_self _ _ _ hl]
      simpa using hcol
    · simp only [broadphasePair, if_neg hs, if_pos hc, hl]
      rw [arbLookup_map_update_self arbs p
        (fun a => { a with contacts := (arbiterUpdate warm a.contacts (mkArbiter cosF sinF sqrtF bodies p.1 p.2).contacts) })]
      rw [List.getD_eq_getElem?_getD, List.getD_eq_getElem?_getD] at hcol
      simp [hl, hcol]
  · have hc' : ¬0 < (collide cosF sinF (bodies.getD p.1 default)
        (bodies.getD p.2 default)).length := hc
    have hcol : collide cosF sinF (bodies.getD p.1 default)
        (bodies.getD p.2 default) = [] := by
      rcases h0 : collide cosF sinF (bodies.getD p.1 default)
          (bodies.getD p.2 default) with _ | ⟨c0, cs⟩
      · rfl
      · rw [h0] at hc'
        exact absurd (by simp) hc'
    simp only [broadphasePair, if_neg hs, if_neg hc]
    rw [arbLookup_filter_self]
    rw [List.getD_eq_getElem?_getD, List.getD_eq_getElem?_getD] at hcol
    simp [hcol]

theorem foldl_broadphase_lookup_not_mem (cosF sinF sqrtF : ℚ → ℚ) (warm : Bool)
    (bodies : List Body) :
    ∀ (ps : List (Nat × Nat)) (arbs : List ((Nat × Nat) × Arbiter)) (q : Nat × Nat),
      (∀ p ∈ ps, q ≠ p) →
      arbLookup (ps.foldl (broadphasePair cosF sinF sqrtF warm bodies) arbs) q
        = arbLookup arbs q := by
  intro ps
  induction ps with
  | nil => intro arbs q _; rfl
  | cons r t ih =>
      intro arbs q h
      simp only [List.foldl_cons]
      rw [ih _ _ (fun p hp => h p (List.mem_cons_of_mem r hp))]
      exact broadphasePair_lookup_ne _ _ _ _ _ _ _ _ (h r (List.mem_cons_self r t))

theorem foldl_broadphase_lookup_mem (cosF sinF sqrtF : ℚ → ℚ) (warm : Bool)
    (bodies : List Body) :
    ∀ (ps : List (Nat × Nat)) (arbs : List ((Nat × Nat) × Arbiter)) (p : Nat × Nat),
      p ∈ ps → ps.Nodup →
      ¬((bodies.getD p.1 default).inv_mass = 0
          ∧ (bodies.getD p.2 default).inv_mass = 0) →
      ((arbLookup (ps.foldl (broadphasePair cosF sinF sqrtF warm bodies) arbs) p).isSome = true
        ↔ collide cosF sinF (bodies.getD p.1 default) (bodies.getD p.2 default) ≠ []) := by
  intro ps
  induction ps with
  | nil => intro arbs p hp _ _; exact absurd hp (List.not_mem_nil p)
  | cons r t ih =>
      intro arbs p hp hnd hs
      rcases List.mem_cons.mp hp with hr | ht
      · subst hr
        simp only [List.foldl_cons]
        have hnot : ∀ q ∈ t, p ≠ q := by
          intro q hq hpq
          subst hpq
          exact (List.nodup_cons.mp hnd).1 hq
        rw [foldl_broadphase_lookup_not_mem _ _ _ _ _ t _ p hnot]
        exact broadphasePair_lookup_self _ _ _ _ _ _ _ hs
      · simp only [List.foldl_cons]
        exact ih _ p ht (List.nodup_cons.mp hnd).2 hs

theorem pairList_mem (n : Nat) (p : Nat × Nat) :
    p ∈ pairList n ↔ p.1 < p.2 ∧ p.2 < n := by
  rcases p with ⟨i, j⟩
  simp only [pairList, List.mem_flatMap, List.mem_map, List.mem_filter,
    List.mem_range, decide_eq_true_eq, Prod.mk.injEq]
  constructor
  · rintro ⟨a, _, b, ⟨hbn, hab⟩, rfl, rfl⟩
    exact ⟨hab, hbn⟩
  · rintro ⟨hij, hjn⟩
    exact ⟨i, lt_trans hij hjn, j, ⟨hjn, hij⟩, rfl, rfl⟩

theorem pairList_nodup (n : Nat) : (pairList n).Nodup := by
  apply List.nodup_flatMap.mpr
  constructor
  · intro i _
    exact (List.Nodup.filter _ (List.nodup_range n)).map
      (fun a b h => by simpa using congrArg Prod.snd h)
  · have hlt : (List.range n).Pairwise (· < ·) := List.pairwise_lt_range n
    refine hlt.imp ?_
    intro a b hab x hxa hxb
    rcases List.mem_map.mp hxa with ⟨ja, _, rfl⟩
    rcases List.mem_map.mp hxb with ⟨jb, _, heq⟩
    have hba : b = a := congrArg Prod.fst heq
    omega

theorem arbitersPhase_keys
    (g : Arbiter → Body × Body → List Contact → (Body × Body) × List Contact) :
    ∀ (arbs : List ((Nat × Nat) × Arbiter)) (bodies : List Body),
      ((arbitersPhase g bodies arbs).2).map Prod.fst = arbs.map Prod.fst := by
  intro arbs
  induction arbs with
  | nil => intro bodies; rfl
  | cons e es ih =>
      intro bodies
      simp only [arbitersPhase, List.map_cons]
      rw [ih]

theorem solveLoop_keys (accum : Bool) :
    ∀ (n : Nat) (s : List Body × List ((Nat × Nat) × Arbiter) × List Joint),
      ((solveLoop accum n s).2.1).map Prod.fst = (s.2.1).map Prod.fst := by
  intro n
  induction n with
  | zero => intro s; rfl
  | succ n ih =>
      intro s
      rw [solveLoop, ih]
      exact arbitersPhase_keys _ _ _

/-- After broadphase, the rest of `World.step` (pre-steps and solver
iterations) never adds or removes an arbiter: the key list is unchanged. -/
theorem step_arbiter_keys (cosF sinF sqrtF : ℚ → ℚ) (warm accum poscor : Bool)
    (w : World) (dt : ℚ) :
    (step cosF sinF sqrtF warm accum poscor w dt).arbiters.map Prod.fst
      = (broadphase cosF sinF sqrtF warm w).arbiters.map Prod.fst := by
  simp only [step]
  rw [solveLoop_keys, arbitersPhase_keys]

/-- C9: after `World.broadphase`, for every pair of body indices `i < j <
n` that is not both-static, the arbiter dictionary contains the pair's key
if and only if `collide` on the pair yields at least one contact (so a pair
whose collision comes back empty has its arbiter removed); and no later
phase of `World.step` changes the key set, making broadphase the only place
arbiters are removed during a step. -/
theorem broadphase_arbiters_iff (cosF sinF sqrtF : ℚ → ℚ)
    (warm accum poscor : Bool) (w : World) (dt : ℚ) (i j : Nat)
    (hij : i < j) (hjn : j < w.bodies.length)
    (hs : ¬((w.bodies.getD i default).inv_mass = 0
        ∧ (w.bodies.getD j default).inv_mass = 0)) :
    ((arbLookup (broadphase cosF sinF sqrtF warm w).arbiters (i, j)).isSome = true
      ↔ collide cosF sinF (w.bodies.getD i default) (w.bodies.getD j default) ≠ [])
    ∧ (step cosF sinF sqrtF warm accum poscor w dt).arbiters.map Prod.fst
        = (broadphase cosF sinF sqrtF warm w).arbiters.map Prod.fst := by
  constructor
  · have hmem : (i, j) ∈ pairList w.bodies.length :=
      (pairList_mem _ _).mpr ⟨hij, hjn⟩
    exact foldl_broadphase_lookup_mem cosF sinF sqrtF warm w.bodies
      (pairList w.bodies.length) w.arbiters (i, j) hmem
      (pairList_nodup _) hs
  · exact step_arbiter_keys cosF sinF sqrtF warm accum poscor w dt

/-- Sample world for the broadphase witness: two overlapping dynamic unit
boxes at the origin, no gravity, no iterations, empty arbiter dictionary. -/
def bpWorld : World :=
  { gravity := 0, iterations := 0,
    bodies := [bodyInit ⟨1, 1⟩ (Mass.finite 1), bodyInit ⟨1, 1⟩ (Mass.finite 1)],
    joints := [], arbiters := [] }

/-- Witness for the broadphase characterization on `bpWorld` with identity
rotations. -/
theorem broadphase_arbiters_iff_witness :
    ((0 : Nat) < 1 ∧ 1 < bpWorld.bodies.length
      ∧ ¬((bpWorld.bodies.getD 0 default).inv_mass = 0
          ∧ (bpWorld.bodies.getD 1 default).inv_mass = 0))
    ∧ ((arbLookup (broadphase (fun _ => 1) (fun _ => 0) (fun _ => 1/5) true bpWorld).arbiters
          (0, 1)).isSome = true
        ↔ collide (fun _ => 1) (fun _ => 0) (bpWorld.bodies.getD 0 default)
            (bpWorld.bodies.getD 1 default) ≠ []) := by
  have h1 : (0 : Nat) < 1 := by norm_num
  have h2 : 1 < bpWorld.bodies.length := by norm_num [bpWorld]
  have h3 : ¬((bpWorld.bodies.getD 0 default).inv_mass = 0
      ∧ (bpWorld.bodies.getD 1 default).inv_mass = 0) := by
    norm_num [bpWorld, bodyInit]
  exact ⟨⟨h1, h2, h3⟩,
    (broadphase_arbiters_iff (fun _ => 1) (fun _ => 0) (fun _ => 1/5)
      true true true bpWorld 0 0 1 h1 h2 h3).1⟩

/-! ### Claim C10: step with non-positive dt -/

/-- Two bodies agreeing on position and rotation. -/
def samePose (a b : Body) : Prop := a.position = b.position ∧ a.rotation = b.rotation

theorem samePose_refl (a : Body) : samePose a a := ⟨rfl, rfl⟩

theorem samePose_trans {a b c : Body} (h1 : samePose a b) (h2 : samePose b c) :
    samePose a c := ⟨h1.1.trans h2.1, h1.2.trans h2.2⟩

theorem contactPreStep_pose (accum poscor : Bool) (invDt : ℚ) (b1 b2 : Body)
    (c : Contact) :
    samePose ((contactPreStep accum poscor invDt (b1, b2) c).1.1) b1
      ∧ samePose ((contactPreStep accum poscor invDt (b1, b2) c).1.2) b2 := by
  cases accum <;> exact ⟨⟨rfl, rfl⟩, ⟨rfl, rfl⟩⟩

theorem contactImpulseStep_pose (accum : Bool) (friction : ℚ) (b1 b2 : Body)
    (c : Contact) :
    samePose ((contactImpulseStep accum friction (b1, b2) c).1.1) b1
      ∧ samePose ((contactImpulseStep accum friction (b1, b2) c).1.2) b2 :=
  ⟨⟨rfl, rfl⟩, ⟨rfl, rfl⟩⟩

theorem jointPreStep_pose (cosF sinF : ℚ → ℚ) (warm poscor : Bool)
    (invDt : ℚ) (b1 b2 : Body) (jt : Joint) :
    samePose ((jointPreStep cosF sinF warm poscor invDt b1 b2 jt).1) b1
      ∧ samePose ((jointPreStep cosF sinF warm poscor invDt b1 b2 jt).2.1) b2 := by
  cases warm <;> exact ⟨⟨rfl, rfl⟩, ⟨rfl, rfl⟩⟩

theorem jointApplyImpulse_pose (b1 b2 : Body) (jt : Joint) :
    samePose ((jointApplyImpulse b1 b2 jt).1) b1
      ∧ samePose ((jointApplyImpulse b1 b2 jt).2.1) b2 :=
  ⟨⟨rfl, rfl⟩, ⟨rfl, rfl⟩⟩

theorem runContacts_pose (f : Body × Body → Contact → (Body × Body) × Contact)
    (hf : ∀ b1 b2 c, samePose ((f (b1, b2) c).1.1) b1
        ∧ samePose ((f (b1, b2) c).1.2) b2) :
    ∀ (cs : List Contact) (b1 b2 : Body),
      samePose ((runContacts f (b1, b2) cs).1.1) b1
        ∧ samePose ((runContacts f (b1, b2) cs).1.2) b2 := by
  intro cs
  induction cs with
  | nil => intro b1 b2; exact ⟨samePose_refl b1, samePose_refl b2⟩
  | cons c0 cs ih =>
      intro b1 b2
      have h0 := hf b1 b2 c0
      rcases hst : f (b1, b2) c0 with ⟨⟨b1', b2'⟩, c'⟩
      rw [hst] at h0
      simp only at h0
      simp only [runContacts, hst]
      exact ⟨samePose_trans (ih b1' b2').1 h0.1,
             samePose_trans (ih b1' b2').2 h0.2⟩

theorem getD_set_pose (bs : List Body) (i : Nat) (b : Body)
    (hb : samePose b (bs.getD i default)) :
    ∀ k, samePose ((bs.set i b).getD k default) (bs.getD k default) := by
  intro k
  induction bs generalizing i k with
  | nil => exact samePose_refl _
  | cons x t ih =>
      cases i with
      | zero =>
          cases k with
          | zero => exact hb
          | succ k => exact samePose_refl _
      | succ i =>
          cases k with
          | zero => exact samePose_refl _
          | succ k => exact ih i hb k

theorem set2_pose (bs : List Body) (i1 i2 : Nat) (c1 c2 : Body)
    (h1 : samePose c1 (bs.getD i1 default))
    (h2 : samePose c2 (bs.getD i2 default)) :
    ∀ k, samePose (((bs.set i1 c1).set i2 c2).getD k default)
      (bs.getD k default) := by
  intro k
  have ha := getD_set_pose bs i1 c1 h1
  have hb : samePose c2 ((bs.set i1 c1).getD i2 default) :=
    samePose_trans h2 ⟨(ha i2).1.symm, (ha i2).2.symm⟩
  exact samePose_trans (getD_set_pose _ i2 c2 hb k) (ha k)

theorem arbitersPhase_pose
    (g : Arbiter → Body × Body → List Contact → (Body × Body) × List Contact)
    (hg : ∀ arb st cs, samePose ((g arb st cs).1.1) st.1
        ∧ samePose ((g arb st cs).1.2) st.2) :
    ∀ (arbs : List ((Nat × Nat) × Arbiter)) (bodies : List Body) (k : Nat),
      samePose (((arbitersPhase g bodies arbs).1).getD k default)
        (bodies.getD k default) := by
  intro arbs
  induction arbs with
  | nil => intro bodies k; exact samePose_refl _
  | cons e es ih =>
      intro bodies k
      simp only [arbitersPhase]
      have h0 := hg e.2 (bodies.getD e.2.body_1 default, bodies.getD e.2.body_2 default) e.2.contacts
      exact samePose_trans (ih _ k)
        (set2_pose bodies e.2.body_1 e.2.body_2 _ _ h0.1 h0.2 k)

theorem jointsPhase_pose (g : Body → Body → Joint → Body × Body × Joint)
    (hg : ∀ b1 b2 jt, samePose ((g b1 b2 jt).1) b1
        ∧ samePose ((g b1 b2 jt).2.1) b2) :
    ∀ (jts : List Joint) (bodies : List Body) (k : Nat),
      samePose (((jointsPhase g bodies jts).1).getD k default)
        (bodies.getD k default) := by
  intro jts
  induction jts with
  | nil => intro bodies k; exact samePose_refl _
  | cons jt jts ih =>
      intro bodies k
      simp only [jointsPhase]
      have h0 := hg (bodies.getD jt.body_1 default) (bodies.getD jt.body_2 default) jt
      exact samePose_trans (ih _ k)
        (set2_pose bodies jt.body_1 jt.body_2 _ _ h0.1 h0.2 k)

theorem map_pose (f : Body → Body) (hf : ∀ b, samePose (f b) b) :
    ∀ (bs : List Body) (k : Nat),
      samePose ((bs.map f).getD k default) (bs.getD k default) := by
  intro bs
  induction bs with
  | nil => intro k; exact samePose_refl _
  | cons x t ih =>
      intro k
      cases k with
      | zero => exact hf x
      | succ k => exact ih k

theorem integrateForceBody_pose (g : Vec2) (dt : ℚ) (b : Body) :
    samePose (integrateForceBody g dt b) b := by
  unfold integrateForceBody
  split
  · exact samePose_refl b
  · exact ⟨rfl, rfl⟩

theorem integrateVelocityBody_zero_pose (b : Body) :
    samePose (integrateVelocityBody 0 b) b := by
  constructor
  · show b.position + (0 : ℚ) • b.velocity = b.position
    simp
  · show b.rotation + 0 * b.angular_velocity = b.rotation
    simp

theorem solveIteration_pose (accum : Bool)
    (s : List Body × List ((Nat × Nat) × Arbiter) × List Joint) (k : Nat) :
    samePose (((solveIteration accum s).1).getD k default)
      ((s.1).getD k default) := by
  simp only [solveIteration]
  exact samePose_trans
    (jointsPhase_pose _ (fun b1 b2 jt => jointApplyImpulse_pose b1 b2 jt) _ _ k)
    (arbitersPhase_pose _
      (fun arb st cs => by
        rcases st with ⟨b1, b2⟩
        exact runContacts_pose _
          (fun b1 b2 c => contactImpulseStep_pose accum arb.friction b1 b2 c)
          cs b1 b2) _ _ k)

theorem solveLoop_pose (accum : Bool) :
    ∀ (n : Nat) (s : List Body × List ((Nat × Nat) × Arbiter) × List Joint)
      (k : Nat),
      samePose (((solveLoop accum n s).1).getD k default)
        ((s.1).getD k default) := by
  intro n
  induction n with
  | zero => intro s k; exact samePose_refl _
  | succ n ih =>
      intro s k
      rw [solveLoop]
      exact samePose_trans (ih _ k) (solveIteration_pose accum s k)

/-- C10: `World.step` guards the timestep inverse — for every `dt ≤ 0` it
sets `inv_dt` to `0` instead of dividing by `dt` (so the step performs no
division by zero) — and stepping with `dt = 0` leaves every body's position
and rotation unchanged (`position += 0 * velocity`,
`rotation += 0 * angular_velocity`). -/
theorem step_nonpositive_dt_safe (cosF sinF sqrtF : ℚ → ℚ)
    (warm accum poscor : Bool) (w : World) (dt : ℚ) (hdt : dt ≤ 0) :
    invDtOf dt = 0
    ∧ ∀ k, ((step cosF sinF sqrtF warm accum poscor w 0).bodies.getD k default).position
          = (w.bodies.getD k default).position
        ∧ ((step cosF sinF sqrtF warm accum poscor w 0).bodies.getD k default).rotation
          = (w.bodies.getD k default).rotation := by
  constructor
  · unfold invDtOf
    rw [if_neg (not_lt.mpr hdt)]
  · intro k
    have h : samePose
        ((step cosF sinF sqrtF warm accum poscor w 0).bodies.getD k default)
        (w.bodies.getD k default) := by
      simp only [step]
      exact samePose_trans (map_pose _ integrateVelocityBody_zero_pose _ k)
        (samePose_trans (solveLoop_pose accum _ _ k)
          (samePose_trans
            (jointsPhase_pose _
              (fun b1 b2 jt => jointPreStep_pose cosF sinF warm poscor _ b1 b2 jt) _ _ k)
            (samePose_trans
              (arbitersPhase_pose _
                (fun arb st cs => by
                  rcases st with ⟨b1, b2⟩
                  exact runContacts_pose _
                    (fun b1 b2 c => contactPreStep_pose accum poscor _ b1 b2 c)
                    cs b1 b2) _ _ k)
              (map_pose _ (integrateForceBody_pose _ _) _ k))))
    exact h

/-- A one-body world under gravity, used to instantiate the
non-positive-dt theorem. -/
def oneBodyWorld : World :=
  { gravity := ⟨0, -10⟩, iterations := 0,
    bodies := [bodyInit ⟨1, 1⟩ (Mass.finite 1)], joints := [], arbiters := [] }

/-- Witness for the non-positive-dt theorem: `oneBodyWorld` stepped with
`dt = 0`. -/
theorem step_nonpositive_dt_safe_witness :
    ((0 : ℚ) ≤ 0 ∧ invDtOf 0 = 0)
    ∧ ((step (fun _ => 1) (fun _ => 0) (fun _ => 1/5) true true true
          oneBodyWorld 0).bodies.getD 0 default).position
        = (oneBodyWorld.bodies.getD 0 default).position := by
  have hdt : (0 : ℚ) ≤ 0 := le_refl 0
  have h := step_nonpositive_dt_safe (fun _ => 1) (fun _ => 0) (fun _ => 1/5)
    true true true oneBodyWorld 0 hdt
  exact ⟨⟨hdt, h.1⟩, (h.2 0).1⟩

end PyBox2D
